import Mathlib

/-!
Formal model of the core logic of `app.py` (an AI web-builder tool):
the File Store (`read_file_content`, `save_file_content`, `delete_file`),
the Command Interpreter (`parse_and_execute_commands`) and the Preview
Composer (the stylesheet-injection block of the preview tab).

The workspace directory is modelled as an association list from filenames
to UTF-8 contents; OS-level I/O failures are not modelled (the OS is
assumed reliable), but the guard logic, the Python truthiness rules and
the exception behaviour of the interpreter loop are translated faithfully
from the source.  The standard-library JSON parser (`json.loads`) is an
external black box and is passed in as an explicit `loads` parameter;
every other function is translated line by line from `app.py`.
-/

/-! ### String helpers modelling the Python string primitives used by app.py -/

/-- Whitespace characters removed by Python's `str.strip()` (ASCII subset). -/
def pyIsSpace (c : Char) : Bool :=
  c = ' ' || c = '\t' || c = '\n' || c = '\r' || c = '\x0b' || c = '\x0c'

/-- Strip `pyIsSpace` characters from both ends of a character list
(back end first, then front end; the result is the same either way). -/
def stripList (l : List Char) : List Char :=
  ((l.reverse.dropWhile pyIsSpace).reverse).dropWhile pyIsSpace

/-- Model of Python `s.strip()`. -/
def pyStrip (s : String) : String := String.mk (stripList s.data)

/-- Model of Python `s.startswith(p)`. -/
def pyStartsWith (s p : String) : Bool := p.data.isPrefixOf s.data

/-- First index at which `pat` occurs in a character list, if any
(model of the index produced by `re.search` for a literal pattern,
and of Python's `needle in haystack` substring test via `Option.isSome`). -/
def findSub (pat : List Char) : List Char → Option Nat
  | [] => if pat.isPrefixOf ([] : List Char) then some 0 else none
  | c :: t => if pat.isPrefixOf (c :: t) then some 0 else (findSub pat t).map (· + 1)

/-- Model of Python `needle in haystack` for strings (substring containment). -/
def strContains (hay needle : String) : Bool := (findSub needle.data hay.data).isSome

/-! ### File Store (app.py lines 38-73)

The workspace is an association list from filename to content.  A fresh
write is put at the head; `lookupFS` finds the unique binding. -/

/-- The workspace directory: filenames mapped to file contents. -/
abbrev FS := List (String × String)

/-- Content stored under filename `f`, if present. -/
def lookupFS (fs : FS) (f : String) : Option String :=
  (fs.find? (fun p => p.1 == f)).map (fun p => p.2)

/-- Store `c` under `f`, overwriting any previous binding. -/
def writeFS (fs : FS) (f c : String) : FS :=
  (f, c) :: fs.filter (fun p => !(p.1 == f))

/-- Remove the binding of `f`. -/
def removeFS (fs : FS) (f : String) : FS :=
  fs.filter (fun p => !(p.1 == f))

/-- The containment guard shared by read/write/delete (app.py lines 44, 53, 62):
`".." in filename or filename.startswith(("/", "\\"))`. -/
def pathRejected (filename : String) : Bool :=
  strContains filename ".." || pyStartsWith filename "/" || pyStartsWith filename "\\"

/-- `read_file_content` (app.py lines 42-49): `None` on empty or rejected
filename, `None` when the file is absent, otherwise the content. -/
def read_file_content (fs : FS) (filename : String) : Option String :=
  if filename.isEmpty then none
  else if pathRejected filename then none
  else lookupFS fs filename

/-- `save_file_content` (app.py lines 51-58): `False` on empty or rejected
filename, otherwise write and return `True`; returns the updated store. -/
def save_file_content (fs : FS) (filename content : String) : Bool × FS :=
  if filename.isEmpty then (false, fs)
  else if pathRejected filename then (false, fs)
  else (true, writeFS fs filename content)

/-- The Streamlit session state touched by `delete_file` and the preview:
selection, cached editor content, cached rendered HTML, and the
`rendered_for_<filename>` marker keys. -/
structure SessionState where
  selected_file : Option String
  file_content : String
  rendered_html : String
  renderedFor : List (String × String)

/-- `delete_file` (app.py lines 60-73): guard as in read/write; `False` when
the file is absent (`FileNotFoundError` warning); on success, if the deleted
file is the current selection, clear selection, cached content, cached
rendered HTML and the per-file rendered marker. -/
def delete_file (fs : FS) (ss : SessionState) (filename : String) :
    Bool × FS × SessionState :=
  if filename.isEmpty then (false, fs, ss)
  else if pathRejected filename then (false, fs, ss)
  else
    match lookupFS fs filename with
    | none => (false, fs, ss)
    | some _ =>
      let fs' := removeFS fs filename
      if ss.selected_file == some filename then
        (true, fs',
          ⟨none, "", "", ss.renderedFor.filter (fun p => !(p.1 == filename))⟩)
      else (true, fs', ss)

/-! ### Parsed JSON values (the result of `json.loads`)

`json.loads` itself is Python standard-library code, external to the
repository; the interpreter is therefore parametrised by a
`loads : String → Option JValue` function (`none` models
`json.JSONDecodeError`).  `JValue` models the Python objects produced by
`json.loads` (JSON numbers are modelled as integers; none of the verified
behaviour distinguishes floats). -/

inductive JValue where
  | jnull
  | jbool (b : Bool)
  | jnum (n : Int)
  | jstr (s : String)
  | jarr (items : List JValue)
  | jobj (fields : List (String × JValue))

/-- Python truthiness (`if x:`) of a `json.loads` result. -/
def jTruthy : JValue → Bool
  | .jnull => false
  | .jbool b => b
  | .jnum n => n != 0
  | .jstr s => !s.isEmpty
  | .jarr l => !l.isEmpty
  | .jobj l => !l.isEmpty

/-- Is this value Python `None` (JSON `null`)? -/
def jIsNull : JValue → Bool
  | .jnull => true
  | _ => false

/-- Python `v == s` for a string literal `s`: true only for an equal string. -/
def jIsStr (v : JValue) (s : String) : Bool :=
  match v with
  | .jstr t => t == s
  | _ => false

/-- `dict.get(key)` on a parsed JSON object, with Python's absent-key and
JSON-null results collapsed to `jnull` (both are Python `None`); for
duplicate keys `json.loads` keeps the last one. -/
def jget (fields : List (String × JValue)) (key : String) : JValue :=
  match fields.reverse.find? (fun p => p.1 == key) with
  | some p => p.2
  | none => .jnull

mutual

/-- Python `repr` of a `json.loads` result (for simple ASCII strings). -/
def pyRepr : JValue → String
  | .jnull => "None"
  | .jbool true => "True"
  | .jbool false => "False"
  | .jnum n => toString n
  | .jstr s => "\x27" ++ s ++ "\x27"
  | .jarr l => "[" ++ pyReprItems l ++ "]"
  | .jobj l => "\x7b" ++ pyReprFields l ++ "\x7d"

/-- Comma-separated `repr`s of list items. -/
def pyReprItems : List JValue → String
  | [] => ""
  | [v] => pyRepr v
  | v :: rest => pyRepr v ++ ", " ++ pyReprItems rest

/-- Comma-separated `repr`s of dict entries. -/
def pyReprFields : List (String × JValue) → String
  | [] => ""
  | [(k, v)] => "\x27" ++ k ++ "\x27: " ++ pyRepr v
  | (k, v) :: rest => "\x27" ++ k ++ "\x27: " ++ pyRepr v ++ ", " ++ pyReprFields rest

end

/-- Python `str` of a `json.loads` result (as used by an f-string). -/
def pyStr (v : JValue) : String :=
  match v with
  | .jstr s => s
  | v => pyRepr v

/-! ### Command Interpreter (app.py lines 76-103) -/

/-- The mutable state the interpreter acts on: workspace plus session state. -/
structure ExecState where
  fs : FS
  ss : SessionState

/-- The synthetic `{"action": "chat", "content": msg}` record. -/
def mkChat (msg : String) : JValue :=
  .jobj [("action", .jstr "chat"), ("content", .jstr msg)]

/-- `save_file_content` as called from the interpreter, where `filename` and
`content` are arbitrary `json.loads` values.  A non-string truthy filename
makes the guard `".." in filename` raise `TypeError` (numbers, booleans) or
makes `filename.startswith` raise `AttributeError` (lists/dicts without a
`".."` member/key) — modelled as `.error`; those exceptions escape
`save_file_content` (its `try` covers only the file I/O).  A non-string
content makes `f.write(content)` raise inside the `try` after `open(..,"w")`
has already truncated the file, so the save returns `False` with the file
emptied. -/
def js_save (st : ExecState) (filename content : JValue) :
    Except String (Bool × ExecState) :=
  if !jTruthy filename then .ok (false, st)
  else
    match filename with
    | .jstr f =>
      match content with
      | .jstr c =>
        let r := save_file_content st.fs f c
        .ok (r.1, { st with fs := r.2 })
      | _ =>
        if pathRejected f then .ok (false, st)
        else .ok (false, { st with fs := writeFS st.fs f "" })
    | .jnum _ => .error "TypeError"
    | .jbool _ => .error "TypeError"
    | .jarr l =>
      if l.any (fun v => jIsStr v "..") then .ok (false, st)
      else .error "AttributeError"
    | .jobj l =>
      if l.any (fun p => p.1 == "..") then .ok (false, st)
      else .error "AttributeError"
    | .jnull => .ok (false, st)

/-- `delete_file` as called from the interpreter with an arbitrary
`json.loads` value as filename; guard exceptions exactly as in `js_save`. -/
def js_delete (st : ExecState) (filename : JValue) :
    Except String (Bool × ExecState) :=
  if !jTruthy filename then .ok (false, st)
  else
    match filename with
    | .jstr f =>
      let r := delete_file st.fs st.ss f
      .ok (r.1, ⟨r.2.1, r.2.2⟩)
    | .jnum _ => .error "TypeError"
    | .jbool _ => .error "TypeError"
    | .jarr l =>
      if l.any (fun v => jIsStr v "..") then .ok (false, st)
      else .error "AttributeError"
    | .jobj l =>
      if l.any (fun p => p.1 == "..") then .ok (false, st)
      else .error "AttributeError"
    | .jnull => .ok (false, st)

/-- The record `parse_and_execute_commands` appends for one array element
(app.py lines 85-87): the element itself when it is a dict, otherwise the
synthetic `Skipped:` chat record. -/
def recordOf (command : JValue) : JValue :=
  match command with
  | .jobj fields => .jobj fields
  | c => mkChat ("Skipped: " ++ pyStr c)

/-- The side effects of one iteration of the interpreter's
`for command in commands` loop (app.py lines 84-96): the updated state, or
the exception that escapes the loop body (only the File Store guard applied
to a non-string filename can raise). -/
def execEffect (st : ExecState) (command : JValue) : Except String ExecState :=
  match command with
  | .jobj fields =>
    if jIsStr (jget fields "action") "create_update" then
      if jTruthy (jget fields "filename") && !jIsNull (jget fields "content") then
        (js_save st (jget fields "filename") (jget fields "content")).map (fun p => p.2)
      else .ok st
    else if jIsStr (jget fields "action") "delete" then
      if jTruthy (jget fields "filename") then
        (js_delete st (jget fields "filename")).map (fun p => p.2)
      else .ok st
    else .ok st
  | _ => .ok st

/-- The interpreter loop over the parsed array, accumulating the records in
reverse.  An exception escaping a loop body is caught by the function's
outer `except Exception` handler, which discards the records accumulated so
far and returns a single error chat record; side effects already applied
persist. -/
def execCommands : List JValue → ExecState → List JValue → List JValue × ExecState
  | [], st, acc => (acc.reverse, st)
  | command :: rest, st, acc =>
    match execEffect st command with
    | .ok st' => execCommands rest st' (recordOf command :: acc)
    | .error e => ([mkChat ("Error processing commands: " ++ e)], st)

/-- The fence-stripping prelude of `parse_and_execute_commands` (app.py
lines 79-81): trim, then unconditionally cut 7 (after a ` ```json ` marker)
or 3 (after a bare ` ``` ` marker) leading and 3 trailing characters and
trim again. -/
def clean_response (s : String) : String :=
  if pyStartsWith (pyStrip s) "```json" then
    pyStrip (String.mk (((pyStrip s).data.take ((pyStrip s).data.length - 3)).drop 7))
  else if pyStartsWith (pyStrip s) "```" then
    pyStrip (String.mk (((pyStrip s).data.take ((pyStrip s).data.length - 3)).drop 3))
  else pyStrip s

/-- `parse_and_execute_commands` (app.py lines 76-103), parametrised by the
external JSON parser `loads` (`none` = `json.JSONDecodeError`).  Returns
the record batch and the final state. -/
def parse_and_execute_commands (ai_response_text : String)
    (loads : String → Option JValue) (st : ExecState) :
    List JValue × ExecState :=
  match loads (clean_response ai_response_text) with
  | none => ([mkChat ("AI(Invalid JSON): " ++ ai_response_text)], st)
  | some v =>
    match v with
    | .jarr commands => execCommands commands st []
    | _ => ([mkChat ("AI (Non-list JSON): " ++ ai_response_text)], st)

/-! ### Preview Composer (app.py lines 247-262) -/

/-- The CDN script-tag substring whose presence marks a self-contained
React/CDN preview. -/
def CDN_MARKER : String := "<script src=\"https://unpkg.com/@babel/standalone"

/-- The content's characters lowercased, for the case-insensitive
`re.search(r"</head>", final_html, re.IGNORECASE)`. -/
def lowerData (s : String) : List Char := s.data.map Char.toLower

/-- The preview-composition block (app.py lines 249-261): given the selected
HTML file's content and the result of `read_file_content(CSS_FILENAME)`,
return the HTML shown in the preview.  No injection when the CDN marker is
present, when the stylesheet is unreadable or empty, or when no
case-insensitive `</head>` occurs; otherwise splice a `<style>` block
immediately before the first `</head>`. -/
def compose_preview (content : String) (css_content : Option String) : String :=
  if strContains content CDN_MARKER then content
  else
    match css_content with
    | some c =>
      if c.isEmpty then content
      else
        match findSub ("</head>".data) (lowerData content) with
        | some i =>
          String.mk (content.data.take i ++
            ("\n<style>\n" ++ c ++ "\n</style>\n").data ++ content.data.drop i)
        | none => content
    | none => content

/-! ### Exception analysis for the interpreter loop

In Python, `".." in filename` raises `TypeError` when `filename` is a
number or boolean, and `filename.startswith(...)` raises `AttributeError`
for a list or dict (unless the `".." in filename` membership test already
returned `True` for a list containing the string `".."` or a dict with key
`".."`).  These predicates characterise exactly when the loop body of
`parse_and_execute_commands` raises. -/

/-- Does passing this `json.loads` value as `filename` to the File Store
guard raise an exception?  (Falsy values return `False` before the guard.) -/
def fileArgRaises (filename : JValue) : Bool :=
  jTruthy filename &&
    (match filename with
     | .jstr _ => false
     | .jnum _ => true
     | .jbool _ => true
     | .jarr l => !(l.any (fun v => jIsStr v ".."))
     | .jobj l => !(l.any (fun p => p.1 == ".."))
     | .jnull => false)

/-- Does executing this array element raise an exception out of the loop
body (aborting the batch into a single error record)? -/
def commandRaises (command : JValue) : Bool :=
  match command with
  | .jobj fields =>
    if jIsStr (jget fields "action") "create_update" then
      (jTruthy (jget fields "filename") && !jIsNull (jget fields "content")) &&
        fileArgRaises (jget fields "filename")
    else if jIsStr (jget fields "action") "delete" then
      jTruthy (jget fields "filename") && fileArgRaises (jget fields "filename")
    else false
  | _ => false

/-! ### Helper lemmas -/

/-- Every list is a `isPrefixOf`-prefix of itself followed by anything. -/
theorem isPrefixOf_append_self (l r : List Char) : l.isPrefixOf (l ++ r) = true := by
  induction l with
  | nil => simp [List.isPrefixOf]
  | cons c t ih => simp [List.isPrefixOf, ih]

/-- A `find?` for key `f` on a list filtered to exclude key `f` finds nothing. -/
theorem find?_filter_ne (l : List (String × String)) (f : String) :
    (l.filter (fun p => !(p.1 == f))).find? (fun p => p.1 == f) = none := by
  induction l with
  | nil => rfl
  | cons a t ih =>
    by_cases h : a.1 == f
    · simp [List.filter_cons, h, ih]
    · simp only [List.filter_cons, h, Bool.not_false, if_true]
      simp [List.find?_cons, h, ih]

/-! ### C1 -/

/-- C1 (amended): every filename that is empty, contains `..`, or starts
with `/` or `\` is refused by all three File Store operations before any
I/O — read returns `none`, write and delete return `false` and leave the
workspace (and session state) unchanged — regardless of the workspace
contents.  (The original claim also included Windows drive prefixes such
as `C:\`; those are not rejected by the code, see the counterexample.) -/
theorem containment_rejects (fs : FS) (ss : SessionState) (filename content : String)
    (h : filename.isEmpty = true ∨ strContains filename ".." = true ∨
         pyStartsWith filename "/" = true ∨ pyStartsWith filename "\\" = true) :
    read_file_content fs filename = none ∧
    save_file_content fs filename content = (false, fs) ∧
    delete_file fs ss filename = (false, fs, ss) := by
  rcases h with h | h | h | h
  · simp [read_file_content, save_file_content, delete_file, h]
  all_goals {
    have hr : pathRejected filename = true := by
      simp [pathRejected, h]
    by_cases he : filename.isEmpty <;>
      simp [read_file_content, save_file_content, delete_file, he, hr]
  }

/-- Witness for C1 at the concrete rejected filename `../x`. -/
theorem containment_rejects_witness :
    read_file_content [] "../x" = none ∧
    save_file_content [] "../x" "y" = (false, []) ∧
    delete_file [] ⟨none, "", "", []⟩ "../x" = (false, [], ⟨none, "", "", []⟩) :=
  containment_rejects [] ⟨none, "", "", []⟩ "../x" "y"
    (Or.inr (Or.inl (by decide)))

/-- Counterexample to C1 as stated: the Windows drive-prefixed filename
`C:\x` passes the guard (it is non-empty, contains no `..`, and starts with
`C`, not `/` or `\`), so `save_file_content` performs the write and returns
`true` where the claim requires a refusal returning `false`. -/
theorem containment_drive_prefix_counterexample :
    save_file_content [] "C:\\x" "y" = (true, [("C:\\x", "y")]) ∧ true ≠ false := by
  exact ⟨by decide, by decide⟩

/-! ### C9 -/

/-- C9: the containment check is a plain substring test — any filename
containing the two-character substring `..` anywhere (even inside an
ordinary file name such as `notes..txt`) is refused by read, write and
delete alike. -/
theorem dotdot_substring_rejects (fs : FS) (ss : SessionState) (filename content : String)
    (h : strContains filename ".." = true) :
    read_file_content fs filename = none ∧
    save_file_content fs filename content = (false, fs) ∧
    delete_file fs ss filename = (false, fs, ss) := by
  have hr : pathRejected filename = true := by
    simp [pathRejected, h]
  by_cases he : filename.isEmpty <;>
    simp [read_file_content, save_file_content, delete_file, he, hr]

/-- Witness for C9 at the harmless-looking filename `notes..txt`
(no path segment equals `..`, yet every operation refuses). -/
theorem dotdot_substring_rejects_witness :
    read_file_content [("notes..txt", "z")] "notes..txt" = none ∧
    save_file_content [("notes..txt", "z")] "notes..txt" "y" = (false, [("notes..txt", "z")]) ∧
    delete_file [("notes..txt", "z")] ⟨none, "", "", []⟩ "notes..txt" =
      (false, [("notes..txt", "z")], ⟨none, "", "", []⟩) :=
  dotdot_substring_rejects [("notes..txt", "z")] ⟨none, "", "", []⟩ "notes..txt" "y"
    (by decide)

/-! ### C7 -/

/-- C7: round-trip — for every filename accepted by the containment rule
and every content string, writing and then reading returns exactly the
written content. -/
theorem write_read_roundtrip (fs : FS) (filename content : String)
    (he : filename.isEmpty = false) (hr : pathRejected filename = false) :
    read_file_content (save_file_content fs filename content).2 filename = some content := by
  simp [save_file_content, he, hr, read_file_content, lookupFS, writeFS, List.find?_cons]

/-- Witness for C7 at a concrete accepted filename. -/
theorem write_read_roundtrip_witness :
    read_file_content (save_file_content [] "index.html" "hello").2 "index.html" =
      some "hello" :=
  write_read_roundtrip [] "index.html" "hello" (by decide) (by decide)

/-! ### C8 -/

/-- C8: whenever `delete_file` actually removes the currently selected
filename, the selection, the cached file content, the cached rendered HTML
and the per-file rendered marker are all cleared; deleting under any other
selection leaves the session state untouched. -/
theorem delete_clears_selection (fs : FS) (ss : SessionState) (filename : String) :
    ((delete_file fs ss filename).1 = true → ss.selected_file = some filename →
      ((delete_file fs ss filename).2.2.selected_file = none ∧
       (delete_file fs ss filename).2.2.file_content = "" ∧
       (delete_file fs ss filename).2.2.rendered_html = "" ∧
       (delete_file fs ss filename).2.2.renderedFor.find? (fun p => p.1 == filename) = none)) ∧
    (ss.selected_file ≠ some filename → (delete_file fs ss filename).2.2 = ss) := by
  unfold delete_file
  by_cases he : filename.isEmpty
  · simp [he]
  by_cases hr : pathRejected filename
  · simp [he, hr]
  rcases hf : lookupFS fs filename with _ | c
  · simp [he, hr, hf]
  by_cases hsel : ss.selected_file = some filename
  · simp [he, hr, hf, hsel, find?_filter_ne]
  · have hsel' : (ss.selected_file == some filename) = false := by
      simp [hsel]
    simp [he, hr, hf, hsel, hsel']

/-- Witness for C8: deleting the selected file `a.html` clears the
selection state; deleting while `b.html` is selected leaves it unchanged. -/
theorem delete_clears_selection_witness :
    ((delete_file [("a.html", "x")] ⟨some "a.html", "x", "r", [("a.html", "x")]⟩ "a.html").1 = true →
      some "a.html" = some "a.html" →
      ((delete_file [("a.html", "x")] ⟨some "a.html", "x", "r", [("a.html", "x")]⟩ "a.html").2.2.selected_file = none ∧
       (delete_file [("a.html", "x")] ⟨some "a.html", "x", "r", [("a.html", "x")]⟩ "a.html").2.2.file_content = "" ∧
       (delete_file [("a.html", "x")] ⟨some "a.html", "x", "r", [("a.html", "x")]⟩ "a.html").2.2.rendered_html = "" ∧
       (delete_file [("a.html", "x")] ⟨some "a.html", "x", "r", [("a.html", "x")]⟩ "a.html").2.2.renderedFor.find?
         (fun p => p.1 == "a.html") = none)) ∧
    (some "b.html" ≠ some "a.html" →
      (delete_file [("a.html", "x")] ⟨some "b.html", "x", "r", []⟩ "a.html").2.2 =
        ⟨some "b.html", "x", "r", []⟩) := by
  exact ⟨(delete_clears_selection [("a.html", "x")]
            ⟨some "a.html", "x", "r", [("a.html", "x")]⟩ "a.html").1,
         (delete_clears_selection [("a.html", "x")]
            ⟨some "b.html", "x", "r", []⟩ "a.html").2⟩

/-! ### Interpreter lemmas -/

/-- A filename value whose guard does not raise lets `js_save` return
normally (with `ok`), whatever the content. -/
theorem js_save_ok (st : ExecState) (filename content : JValue)
    (h : fileArgRaises filename = false) :
    ∃ r, js_save st filename content = .ok r := by
  cases filename with
  | jnull => exact ⟨_, rfl⟩
  | jbool b =>
    cases b
    · exact ⟨_, rfl⟩
    · simp [fileArgRaises, jTruthy] at h
  | jnum n =>
    by_cases hn : n = 0
    · subst hn; exact ⟨_, rfl⟩
    · simp [fileArgRaises, jTruthy, hn] at h
  | jstr f =>
    by_cases ht : jTruthy (.jstr f)
    · cases content <;> simp [js_save, ht] <;>
        by_cases hr : pathRejected f <;> simp [hr]
    · simp [js_save, ht]
  | jarr l =>
    by_cases ht : jTruthy (.jarr l)
    · have : (l.any (fun v => jIsStr v "..")) = true := by
        simp [fileArgRaises, ht] at h
        simpa using h
      simp [js_save, ht, this]
    · simp [js_save, ht]
  | jobj l =>
    by_cases ht : jTruthy (.jobj l)
    · have : (l.any (fun p => p.1 == "..")) = true := by
        simp [fileArgRaises, ht] at h
        simpa using h
      simp [js_save, ht, this]
    · simp [js_save, ht]

/-- A filename value whose guard does not raise lets `js_delete` return
normally. -/
theorem js_delete_ok (st : ExecState) (filename : JValue)
    (h : fileArgRaises filename = false) :
    ∃ r, js_delete st filename = .ok r := by
  cases filename with
  | jnull => exact ⟨_, rfl⟩
  | jbool b =>
    cases b
    · exact ⟨_, rfl⟩
    · simp [fileArgRaises, jTruthy] at h
  | jnum n =>
    by_cases hn : n = 0
    · subst hn; exact ⟨_, rfl⟩
    · simp [fileArgRaises, jTruthy, hn] at h
  | jstr f =>
    by_cases ht : jTruthy (.jstr f) <;> simp [js_delete, ht]
  | jarr l =>
    by_cases ht : jTruthy (.jarr l)
    · have : (l.any (fun v => jIsStr v "..")) = true := by
        simp [fileArgRaises, ht] at h
        simpa using h
      simp [js_delete, ht, this]
    · simp [js_delete, ht]
  | jobj l =>
    by_cases ht : jTruthy (.jobj l)
    · have : (l.any (fun p => p.1 == "..")) = true := by
        simp [fileArgRaises, ht] at h
        simpa using h
      simp [js_delete, ht, this]
    · simp [js_delete, ht]

/-- An array element that does not raise yields a normal `execEffect`. -/
theorem execEffect_ok (st : ExecState) (c : JValue) (h : commandRaises c = false) :
    ∃ st', execEffect st c = .ok st' := by
  cases c with
  | jobj fields =>
    by_cases ha : jIsStr (jget fields "action") "create_update" = true
    · by_cases hb : (jTruthy (jget fields "filename") && !jIsNull (jget fields "content")) = true
      · have hf : fileArgRaises (jget fields "filename") = false := by
          simp only [commandRaises, ha, if_true, hb, Bool.true_and] at h
          exact h
        obtain ⟨r, hr⟩ := js_save_ok st (jget fields "filename") (jget fields "content") hf
        exact ⟨r.2, by simp [execEffect, ha, hb, hr, Except.map]⟩
      · exact ⟨st, by simp [execEffect, ha, hb]⟩
    · by_cases hd : jIsStr (jget fields "action") "delete" = true
      · by_cases hb : jTruthy (jget fields "filename") = true
        · have hf : fileArgRaises (jget fields "filename") = false := by
            simp only [commandRaises, ha, if_false, hd, if_true, hb, Bool.true_and,
              Bool.false_and] at h
            simpa [ha, hd, hb] using h
          obtain ⟨r, hr⟩ := js_delete_ok st (jget fields "filename") hf
          exact ⟨r.2, by simp [execEffect, ha, hd, hb, hr, Except.map]⟩
        · exact ⟨st, by simp [execEffect, ha, hd, hb]⟩
      · exact ⟨st, by simp [execEffect, ha, hd]⟩
  | jnull => exact ⟨st, rfl⟩
  | jbool b => exact ⟨st, rfl⟩
  | jnum n => exact ⟨st, rfl⟩
  | jstr s => exact ⟨st, rfl⟩
  | jarr l => exact ⟨st, rfl⟩

/-- When no element raises, the loop returns one record per element, in
order, after the already-accumulated ones. -/
theorem execCommands_records : ∀ (cmds : List JValue) (st : ExecState) (acc : List JValue),
    (∀ c ∈ cmds, commandRaises c = false) →
    (execCommands cmds st acc).1 = acc.reverse ++ cmds.map recordOf
  | [], st, acc, _ => by simp [execCommands]
  | c :: rest, st, acc, h => by
    obtain ⟨st', hst⟩ := execEffect_ok st c (h c (by simp))
    rw [execCommands, hst]
    rw [execCommands_records rest st' (recordOf c :: acc)
      (fun d hd => h d (List.mem_cons_of_mem _ hd))]
    simp

/-! ### C4 -/

/-- C4: for every reply whose trimmed, fence-stripped text is not valid
JSON (`loads` fails), the interpreter returns exactly one chat-tagged
record whose content embeds the original reply text, and the state (hence
the workspace) is unchanged — no write or delete occurs. -/
theorem parse_fallback_no_mutation (raw : String) (loads : String → Option JValue)
    (st : ExecState) (h : loads (clean_response raw) = none) :
    parse_and_execute_commands raw loads st =
      ([mkChat ("AI(Invalid JSON): " ++ raw)], st) := by
  unfold parse_and_execute_commands
  rw [h]

/-- Witness for C4 at a concrete non-JSON reply. -/
theorem parse_fallback_no_mutation_witness :
    parse_and_execute_commands "hello there" (fun _ => none) ⟨[], ⟨none, "", "", []⟩⟩ =
      ([mkChat ("AI(Invalid JSON): " ++ "hello there")], ⟨[], ⟨none, "", "", []⟩⟩) :=
  parse_fallback_no_mutation "hello there" (fun _ => none) ⟨[], ⟨none, "", "", []⟩⟩ rfl

/-! ### C3 -/

/-- C3: on the reply array
`[create_update a.html X, non-object, delete a.html]` the interpreter
applies the side effects eagerly left-to-right with no rollback: after the
first element `a.html` exists with content `X` (second conjunct), and after
the full batch it has been deleted again (first conjunct, final workspace
empty); the returned batch has length 3 with the middle element replaced by
the `Skipped:` chat fallback, and the third element is still processed. -/
theorem batch_partial_apply :
    (parse_and_execute_commands "reply"
        (fun _ => some (.jarr
          [.jobj [("action", .jstr "create_update"), ("filename", .jstr "a.html"),
                  ("content", .jstr "X")],
           .jstr "oops",
           .jobj [("action", .jstr "delete"), ("filename", .jstr "a.html")]]))
        ⟨[], ⟨none, "", "", []⟩⟩) =
      ([.jobj [("action", .jstr "create_update"), ("filename", .jstr "a.html"),
               ("content", .jstr "X")],
        mkChat ("Skipped: " ++ "oops"),
        .jobj [("action", .jstr "delete"), ("filename", .jstr "a.html")]],
       ⟨[], ⟨none, "", "", []⟩⟩) ∧
    (execCommands
        [.jobj [("action", .jstr "create_update"), ("filename", .jstr "a.html"),
                ("content", .jstr "X")],
         .jstr "oops"]
        ⟨[], ⟨none, "", "", []⟩⟩ []).2.fs = [("a.html", "X")] :=
  ⟨rfl, rfl⟩

/-! ### C6 -/

/-- C6 (amended): for every reply that parses to a JSON array none of whose
elements makes the File Store guard raise (`commandRaises` is false for
each, e.g. no numeric/boolean filename on a create/delete element), the
returned batch has exactly one record per array element in the original
order: each object element appears as itself, each non-object element as a
`Skipped:` chat fallback.  (The original claim had no such proviso; see the
counterexample for an element that aborts the batch.) -/
theorem batch_record_preservation (raw : String) (loads : String → Option JValue)
    (st : ExecState) (cmds : List JValue)
    (hl : loads (clean_response raw) = some (.jarr cmds))
    (hsafe : ∀ c ∈ cmds, commandRaises c = false) :
    (parse_and_execute_commands raw loads st).1 = cmds.map recordOf := by
  unfold parse_and_execute_commands
  rw [hl]
  simpa using execCommands_records cmds st [] hsafe

/-- Witness for C6 at a two-element array (one object, one number). -/
theorem batch_record_preservation_witness :
    (parse_and_execute_commands "w"
        (fun _ => some (.jarr
          [.jobj [("action", .jstr "chat"), ("content", .jstr "hi")], .jnum 5]))
        ⟨[], ⟨none, "", "", []⟩⟩).1 =
      [.jobj [("action", .jstr "chat"), ("content", .jstr "hi")],
       mkChat ("Skipped: " ++ "5")] :=
  (batch_record_preservation "w" _ ⟨[], ⟨none, "", "", []⟩⟩
    [.jobj [("action", .jstr "chat"), ("content", .jstr "hi")], .jnum 5]
    rfl (by decide)).trans rfl

/-- Counterexample to C6 as stated: the array element
`{"action": "create_update", "filename": 1, "content": "x"}` is an object
element with invalid fields, so the claim requires it (and the following
chat element) to appear in a 2-record batch; but the numeric filename makes
the guard `".." in filename` raise `TypeError`, aborting the loop — the
returned batch is the single error record, length 1, not 2. -/
theorem batch_abort_counterexample :
    (parse_and_execute_commands "r"
        (fun _ => some (.jarr
          [.jobj [("action", .jstr "create_update"), ("filename", .jnum 1),
                  ("content", .jstr "x")],
           .jobj [("action", .jstr "chat"), ("content", .jstr "hi")]]))
        ⟨[], ⟨none, "", "", []⟩⟩).1.length = 1 ∧ (1 : Nat) ≠ 2 :=
  ⟨rfl, by decide⟩

/-! ### Substring-search lemmas -/

/-- If the pattern occurs nowhere, `findSub` returns `none`. -/
theorem findSub_eq_none (pat : List Char) :
    ∀ l : List Char, (∀ j, pat.isPrefixOf (l.drop j) = false) → findSub pat l = none
  | [], h => by
    have h0 := h 0
    rw [List.drop_zero] at h0
    simp [findSub, h0]
  | c :: t, h => by
    have h0 := h 0
    rw [List.drop_zero] at h0
    have ht : ∀ j, pat.isPrefixOf (t.drop j) = false := fun j => by
      have hj := h (j + 1)
      rwa [List.drop_succ_cons] at hj
    simp [findSub, h0, findSub_eq_none pat t ht]

/-- If the pattern occurs at `i` and nowhere earlier, `findSub` returns `some i`. -/
theorem findSub_eq_some (pat : List Char) :
    ∀ (i : Nat) (l : List Char), pat.isPrefixOf (l.drop i) = true →
      (∀ j, j < i → pat.isPrefixOf (l.drop j) = false) →
      findSub pat l = some i
  | 0, l, h, _ => by
    rw [List.drop_zero] at h
    cases l <;> simp [findSub, h]
  | i + 1, l, h, hmin => by
    have h0 := hmin 0 (Nat.succ_pos i)
    rw [List.drop_zero] at h0
    cases l with
    | nil =>
      rw [List.drop_nil] at h
      rw [h0] at h
      exact absurd h (by simp)
    | cons c t =>
      rw [List.drop_succ_cons] at h
      have htmin : ∀ j, j < i → pat.isPrefixOf (t.drop j) = false := fun j hj => by
        have hjc := hmin (j + 1) (Nat.succ_lt_succ hj)
        rwa [List.drop_succ_cons] at hjc
      simp [findSub, h0, findSub_eq_some pat i t h htmin]

/-! ### C2 -/

/-- C2: preview composition is the claimed piecewise function.  (1) Content
containing the CDN marker is returned unchanged whatever the stylesheet.
(2) Content with no case-insensitive `</head>` occurrence is returned
unchanged.  (3) Otherwise, with a readable non-empty stylesheet, the output
is the input with exactly one `<style>` block containing the stylesheet
text spliced at the first case-insensitive `</head>` occurrence. -/
theorem preview_composition (content : String) (css : Option String) :
    (strContains content CDN_MARKER = true → compose_preview content css = content) ∧
    ((∀ j, ("</head>".data).isPrefixOf ((lowerData content).drop j) = false) →
      compose_preview content css = content) ∧
    (∀ (c : String) (i : Nat),
      strContains content CDN_MARKER = false →
      css = some c → c.isEmpty = false →
      ("</head>".data).isPrefixOf ((lowerData content).drop i) = true →
      (∀ j, j < i → ("</head>".data).isPrefixOf ((lowerData content).drop j) = false) →
      compose_preview content css =
        String.mk (content.data.take i ++
          ("\n<style>\n" ++ c ++ "\n</style>\n").data ++ content.data.drop i)) := by
  refine ⟨fun h => by simp [compose_preview, h], fun h => ?_, fun c i hcdn hcss hce hi hmin => ?_⟩
  · by_cases hc : strContains content CDN_MARKER
    · simp [compose_preview, hc]
    · rcases css with _ | c
      · simp [compose_preview, hc]
      · by_cases he : c.isEmpty
        · simp [compose_preview, hc, he]
        · simp [compose_preview, hc, he, findSub_eq_none _ _ h]
  · subst hcss
    simp [compose_preview, hcdn, hce, findSub_eq_some _ i _ hi hmin]

/-- Witness for C2: a concrete upper-case `</HEAD>` receives the injected
block at index 6, and content containing the CDN marker is untouched. -/
theorem preview_composition_witness :
    compose_preview "<HEAD></HEAD>x" (some "p") =
      "<HEAD>\n<style>\np\n</style>\n</HEAD>x" ∧
    compose_preview ("<script src=\"https://unpkg.com/@babel/standalone/babel.min.js\"></script></head>")
        (some "p") =
      "<script src=\"https://unpkg.com/@babel/standalone/babel.min.js\"></script></head>" := by
  constructor
  · have h := (preview_composition "<HEAD></HEAD>x" (some "p")).2.2 "p" 6
      (by decide) rfl (by decide) (by decide) (by decide)
    rw [h]
    rfl
  · exact (preview_composition _ (some "p")).1 (by decide)

/-! ### Fence-stripping lemmas -/

/-- String concatenation concatenates the underlying character lists. -/
theorem string_data_append (a b : String) : (a ++ b).data = a.data ++ b.data := rfl

/-- `isPrefixOf` on `List Char` is transitive. -/
theorem isPrefixOf_trans : ∀ (l₁ l₂ l₃ : List Char),
    l₁.isPrefixOf l₂ = true → l₂.isPrefixOf l₃ = true → l₁.isPrefixOf l₃ = true
  | [], _, _, _, _ => by simp [List.isPrefixOf]
  | _ :: _, [], _, h, _ => by simp [List.isPrefixOf] at h
  | _ :: _, _ :: _, [], _, h => by simp [List.isPrefixOf] at h
  | a :: t₁, b :: t₂, c :: t₃, h₁, h₂ => by
    simp only [List.isPrefixOf, Bool.and_eq_true, beq_iff_eq] at h₁ h₂ ⊢
    exact ⟨h₁.1.trans h₂.1, isPrefixOf_trans t₁ t₂ t₃ h₁.2 h₂.2⟩

/-- A string starting with ` ```json ` also starts with ` ``` `. -/
theorem startsWith_ticks_of_json {s : String} (h : pyStartsWith s "```json" = true) :
    pyStartsWith s "```" = true :=
  isPrefixOf_trans _ _ _ (by decide) h

/-- On a trimmed reply of the shape ` ```json <s> ``` `, `clean_response`
returns `s` trimmed: the ` ```json ` branch cuts exactly the 7 leading and
3 trailing marker characters. -/
theorem clean_response_json_fence (raw s : String)
    (h : pyStrip raw = "```json" ++ s ++ "```") :
    clean_response raw = pyStrip s := by
  have hdata : (pyStrip raw).data = ("```json".data ++ s.data) ++ "```".data := by
    rw [h, string_data_append, string_data_append]
  have hpre : pyStartsWith (pyStrip raw) "```json" = true := by
    rw [pyStartsWith, hdata, List.append_assoc]
    exact isPrefixOf_append_self _ _
  simp only [clean_response, hpre, if_true]
  rw [hdata]
  have hlen : (("```json".data ++ s.data) ++ "```".data).length - 3 =
      ("```json".data ++ s.data).length := by
    simp [List.length_append]
  rw [hlen, List.take_left, List.drop_left' (show ("```json" : String).data.length = 7 from rfl)]

/-- On a trimmed reply of the shape ` ``` <s> ``` ` that does not begin with
` ```json `, `clean_response` returns `s` trimmed: the bare-fence branch
cuts exactly the 3 leading and 3 trailing marker characters. -/
theorem clean_response_bare_fence (raw s : String)
    (h : pyStrip raw = "```" ++ s ++ "```")
    (hj : pyStartsWith (pyStrip raw) "```json" = false) :
    clean_response raw = pyStrip s := by
  have hdata : (pyStrip raw).data = ("```".data ++ s.data) ++ "```".data := by
    rw [h, string_data_append, string_data_append]
  have hpre : pyStartsWith (pyStrip raw) "```" = true := by
    rw [pyStartsWith, hdata, List.append_assoc]
    exact isPrefixOf_append_self _ _
  simp only [clean_response, hj, hpre, if_true, Bool.false_eq_true, if_false]
  rw [hdata]
  have hlen : (("```".data ++ s.data) ++ "```".data).length - 3 =
      ("```".data ++ s.data).length := by
    simp [List.length_append]
  rw [hlen, List.take_left, List.drop_left' (show ("```" : String).data.length = 3 from rfl)]

/-! ### C10 -/

/-- C10: fence stripping truncates unconditionally — for every trimmed
reply starting with ` ```json ` (respectively ` ``` `), the interpreter
parses the (re-trimmed) substring obtained by removing the first 7
(respectively 3) and the last 3 characters, whether or not the reply ends
with a closing fence.  An unclosed fence therefore loses its final three
content characters, as the concrete conjunct shows. -/
theorem fence_truncation :
    (∀ s : String, pyStrip s = s → pyStartsWith s "```json" = true →
      clean_response s = pyStrip (String.mk ((s.data.take (s.data.length - 3)).drop 7))) ∧
    (∀ s : String, pyStrip s = s → pyStartsWith s "```json" = false →
      pyStartsWith s "```" = true →
      clean_response s = pyStrip (String.mk ((s.data.take (s.data.length - 3)).drop 3))) ∧
    clean_response "```\n[1,2,3]" = "[1,2" := by
  refine ⟨fun s h1 h2 => ?_, fun s h1 h2 h3 => ?_, by decide⟩
  · simp only [clean_response, h1, h2, if_true]
  · simp only [clean_response, h1, h2, h3, if_true, Bool.false_eq_true, if_false]

/-- Witness for C10 at an unclosed ` ```json ` fence. -/
theorem fence_truncation_witness :
    pyStrip "```json[1,2]xyz" = "```json[1,2]xyz" ∧
    pyStartsWith "```json[1,2]xyz" "```json" = true ∧
    clean_response "```json[1,2]xyz" =
      pyStrip (String.mk ((("```json[1,2]xyz" : String).data.take
        (("```json[1,2]xyz" : String).data.length - 3)).drop 7)) :=
  ⟨by decide, by decide, fence_truncation.1 "```json[1,2]xyz" (by decide) (by decide)⟩

/-! ### C5 -/

/-- C5 (amended): a reply fenced with the ` ```json ` tag, or with a bare
untagged ` ``` ` fence, around a valid-JSON array is interpreted exactly
like the unfenced array.  (The original claim said this for any language
tag; a non-`json` tag such as ` ```html ` is only partially stripped — see
the counterexample.) -/
theorem fence_strip_json_or_bare :
    (∀ (raw s : String) (loads : String → Option JValue) (st : ExecState)
        (cmds : List JValue),
      pyStrip raw = "```json" ++ s ++ "```" →
      pyStrip s = s →
      pyStartsWith s "```" = false →
      loads s = some (.jarr cmds) →
      parse_and_execute_commands raw loads st = parse_and_execute_commands s loads st) ∧
    (∀ (raw s : String) (loads : String → Option JValue) (st : ExecState)
        (cmds : List JValue),
      pyStrip raw = "```" ++ s ++ "```" →
      pyStartsWith (pyStrip raw) "```json" = false →
      pyStrip s = s →
      pyStartsWith s "```" = false →
      loads s = some (.jarr cmds) →
      parse_and_execute_commands raw loads st = parse_and_execute_commands s loads st) := by
  constructor
  · intro raw s loads st cmds hraw hs h3 hload
    have hj : pyStartsWith s "```json" = false := by
      cases hq : pyStartsWith s "```json"
      · rfl
      · exact absurd (startsWith_ticks_of_json hq) (by simp [h3])
    have e1 : clean_response raw = s := (clean_response_json_fence raw s hraw).trans hs
    have e2 : clean_response s = s := by
      simp only [clean_response, hs, hj, h3, Bool.false_eq_true, if_false]
    unfold parse_and_execute_commands
    rw [e1, e2, hload]
  · intro raw s loads st cmds hraw hjraw hs h3 hload
    have hj : pyStartsWith s "```json" = false := by
      cases hq : pyStartsWith s "```json"
      · rfl
      · exact absurd (startsWith_ticks_of_json hq) (by simp [h3])
    have e1 : clean_response raw = s := (clean_response_bare_fence raw s hraw hjraw).trans hs
    have e2 : clean_response s = s := by
      simp only [clean_response, hs, hj, h3, Bool.false_eq_true, if_false]
    unfold parse_and_execute_commands
    rw [e1, e2, hload]

/-- Witness for C5 at a concrete ` ```json `-fenced empty array. -/
theorem fence_strip_json_or_bare_witness :
    parse_and_execute_commands "```json[]```"
        (fun t => if t == "[]" then some (.jarr []) else none) ⟨[], ⟨none, "", "", []⟩⟩ =
      parse_and_execute_commands "[]"
        (fun t => if t == "[]" then some (.jarr []) else none) ⟨[], ⟨none, "", "", []⟩⟩ :=
  fence_strip_json_or_bare.1 "```json[]```" "[]" _ _ []
    (by decide) (by decide) (by decide) rfl

/-- Counterexample to C5 as stated: with a parser that accepts the array
`[]` (as `json.loads` does) and rejects `html` followed by `[]` (as
`json.loads` does), the ` ```html `-fenced array falls into the
invalid-JSON chat fallback while the unfenced array yields the empty batch:
only the three backticks of the ` ```html ` fence are stripped, leaving the
language tag in the parsed text, so the two replies are interpreted
differently — the claim requires them to be interpreted the same. -/
theorem fence_language_tag_counterexample :
    (parse_and_execute_commands "```html\n[]\n```"
        (fun t => if t == "[]" then some (.jarr []) else none)
        ⟨[], ⟨none, "", "", []⟩⟩).1 =
      [mkChat ("AI(Invalid JSON): " ++ "```html\n[]\n```")] ∧
    (parse_and_execute_commands "[]"
        (fun t => if t == "[]" then some (.jarr []) else none)
        ⟨[], ⟨none, "", "", []⟩⟩).1 = [] ∧
    clean_response "```html\n[]\n```" = "html\n[]" ∧
    parse_and_execute_commands "```html\n[]\n```"
        (fun t => if t == "[]" then some (.jarr []) else none)
        ⟨[], ⟨none, "", "", []⟩⟩ ≠
      parse_and_execute_commands "[]"
        (fun t => if t == "[]" then some (.jarr []) else none)
        ⟨[], ⟨none, "", "", []⟩⟩ := by
  refine ⟨rfl, rfl, by decide, fun hcontra => ?_⟩
  have h : ([mkChat ("AI(Invalid JSON): " ++ "```html\n[]\n```")] : List JValue) = [] :=
    congrArg (fun p => p.1) hcontra
  exact List.noConfusion h
